import Mathlib

/-!
Verification of the batch row-processing orchestrator of CDCDataCollector.

The definitions below are shallow embeddings of the Python code in
`chiara_upload.py` and `main.py`.  Each definition carries a comment naming
the source function and line range it embeds.  Browser interaction is
abstracted: a row-processing attempt is summarised by its outcome, which is
all the control flow of the orchestrator depends on.
-/

set_option maxRecDepth 4096

/-! ## Batch Restart Controller (`chiara_upload.py`, `main`, lines 1777-1853) -/

/-- Outcome of one `process_single_row` call as seen by the controller loop:
either the call returns normally (`ok`) or it raises the distinguished
`BatchRestartException` (`fatal`). -/
inductive ProcResult where
  | ok
  | fatal
deriving DecidableEq, Repr

/-- Embeds the inner loop of `main` (lines 1821-1838): iterate the batch's
rows in order; on a `BatchRestartException` at the row with 1-based index
`k`, stop immediately.  Returns the list of rows on which the row processor
was invoked in this session, and `some remaining_rows` if the loop was
aborted, where `remaining_rows = batch_rows[row_index_in_batch:]`
(line 1835), i.e. the rows strictly after the failed one. -/
def runBatch (proc : α → ProcResult) : List α → List α × Option (List α)
  | [] => ([], none)
  | x :: xs =>
    match proc x with
    | .ok =>
      let r := runBatch proc xs
      (x :: r.1, r.2)
    | .fatal => ([x], some xs)

/-- Embeds `batches = [rows_to_process[i:i + batch_size] for i in
range(0, len(rows_to_process), batch_size)]` (line 1789). -/
def makeBatches (batchSize : Nat) : List α → List (List α)
  | [] => []
  | x :: rest => ((x :: rest).take batchSize) :: makeBatches batchSize (rest.drop (batchSize - 1))
termination_by rows => rows.length
decreasing_by
  simp only [List.length_cons, List.length_drop]
  omega

/-- `batch_size = 5` (line 1788). -/
def batch_size : Nat := 5

/-- Embeds the outer batch loop of `main` (lines 1796-1853), item by item.
Processing a row is one step; a batch-fatal row aborts the current batch and,
if rows remain after the failed one, inserts them as a single new batch
immediately after the current position (`batches.insert(batch_index,
remaining_rows)`, line 1849), so it runs before any originally-later batch.
The result is the ordered trace of rows on which the row processor was
invoked. -/
def runAll (proc : α → ProcResult) : List (List α) → List α
  | [] => []
  | [] :: bs => runAll proc bs
  | (x :: xs) :: bs =>
    match proc x with
    | .ok => x :: runAll proc (xs :: bs)
    | .fatal => x :: runAll proc (if xs.isEmpty then bs else xs :: bs)
termination_by bs => (bs.map List.length).sum + bs.length
decreasing_by
  · simp only [List.map_cons, List.sum_cons, List.length_cons, List.length_nil]
    omega
  · simp only [List.map_cons, List.sum_cons, List.length_cons]
    omega
  · split
    · simp only [List.map_cons, List.sum_cons, List.length_cons]
      omega
    · simp only [List.map_cons, List.sum_cons, List.length_cons]
      omega

/-! ## Publish sub-workflow (`chiara_upload.py`, `publish_workspace`, lines 1327-1476)

`publish_workspace` runs its body up to twice (`for attempt in range(2)`,
line 1342).  One attempt either completes and returns `(True, None)`, or hits
some exception.  Two of the exception sources are the inline-error checks
(lines 1369-1377 and 1446-1454): when a non-empty `#errormsg` element is
present the code raises `BatchRestartException(f"...Error message detected:
{error_text}", None)`.  Every exception, `BatchRestartException` included
(it subclasses `Exception`), is caught by the attempt loop's own
`except Exception` handler (line 1459): the first failure is retried, the
second makes the function return `(False, error_msg)`. -/

/-- Python exceptions relevant to the publish workflow:
`BatchRestartException` (lines 55-60; `str(e)` is its `error_message`) and
any other exception. Both subclass `Exception`. -/
inductive PyExc where
  | batchRestart (msg : String)
  | other (msg : String)
deriving DecidableEq, Repr

/-- `str(e)` for the exceptions modelled by `PyExc`. -/
def excStr : PyExc → String
  | .batchRestart m => m
  | .other m => m

/-- Summary of one attempt of the `publish_workspace` body: it completes, or
the page shows a non-empty `#errormsg` element (inline error), or some other
exception is raised. -/
inductive AttemptOutcome where
  | success
  | inlineError (text : String)
  | exc (msg : String)
deriving DecidableEq, Repr

/-- One attempt of the `publish_workspace` body.  The inline-error checks
(lines 1369-1377, 1446-1454) raise
`BatchRestartException("Error message detected: " + error_text, None)`;
any other failure raises an ordinary exception. (`row_info` is omitted:
the embedding corresponds to `current_row=None`.) -/
def publishAttempt : AttemptOutcome → Except PyExc Unit
  | .success => .ok ()
  | .inlineError text => .error (.batchRestart ("Error message detected: " ++ text))
  | .exc m => .error (.other m)

/-- Embeds `publish_workspace` (lines 1342-1476).  The value `.error e`
would mean an exception `e` escapes to the caller; `.ok (success, err)`
means the function returns normally.  The `except Exception` at line 1459
catches every `PyExc` (including `.batchRestart`), retrying after the first
failed attempt and returning `(False, f"Error during publishing workflow:
{str(e)}")` after the second. -/
def publish_workspace (first second : AttemptOutcome) : Except PyExc (Bool × Option String) :=
  match publishAttempt first with
  | .ok _ => .ok (true, none)
  | .error _ =>
    match publishAttempt second with
    | .ok _ => .ok (true, none)
    | .error e => .ok (false, some ("Error during publishing workflow: " ++ excStr e))

/-- Embeds the publish call site in `process_single_row` (lines 1639-1643):
`publish_success, publish_error = publish_workspace(...)`; on failure the
error string is appended to `row_warnings`.  (`publish_workspace` always
supplies a message on failure; `getD` covers the unreachable `None`.) -/
def applyPublishOutcome (res : Bool × Option String) (row_warnings : List String) :
    Bool × List String :=
  match res with
  | (true, _) => (true, row_warnings)
  | (false, e) => (false, row_warnings ++ [e.getD "None"])

/-- The publish step as seen from `process_single_row`: a raised exception
would propagate (`.error`); a normal return feeds `applyPublishOutcome`. -/
def processPublishStep (pub : Except PyExc (Bool × Option String))
    (row_warnings : List String) : Except PyExc (Bool × List String) :=
  match pub with
  | .error e => .error e
  | .ok res => .ok (applyPublishOutcome res row_warnings)

/-- `true` when the publish call ends in an exception escaping towards the
Batch Restart Controller (that is how `main`'s
`except BatchRestartException` handler at line 1825 would be reached). -/
def escapesToController : Except PyExc (Bool × Option String) → Bool
  | .error _ => true
  | .ok _ => false

/-! ## Per-row form guards (`chiara_upload.py`, `fill_project_forms`) -/

/-- Agency-entry guard, line 695: `len(singleinput) != 0 and singleinput != " "`. -/
def agencyGuard (singleinput : String) : Bool :=
  singleinput.length != 0 && singleinput != " "

/-- Summary-edit guard, line 744: `len(summarytext) != 0 and summarytext != " "`. -/
def summaryGuard (summarytext : String) : Bool :=
  summarytext.length != 0 && summarytext != " "

/-- Distribution-URL guard, line 786. -/
def originalUrlGuard (original_url_text : String) : Bool :=
  original_url_text.length != 0 && original_url_text != " "

/-- Keyword-cell guard, line 815: `len(single_keywordcell) > 0 and single_keywordcell != " "`. -/
def keywordCellGuard (single_keywordcell : String) : Bool :=
  decide (single_keywordcell.length > 0) && single_keywordcell != " "

/-- Geographic-coverage guard, line 848. -/
def geographicGuard (geographic_coverage_text : String) : Bool :=
  geographic_coverage_text.length != 0 && geographic_coverage_text != " "

/-- Time-period guard, line 867:
`len(timeperiod_start_text) != 0 or len(timeperiod_end_text) != 0` —
note: no `!= " "` test. -/
def timePeriodGuard (timeperiod_start_text timeperiod_end_text : String) : Bool :=
  timeperiod_start_text.length != 0 || timeperiod_end_text.length != 0

/-- Data-types guard, line 894. -/
def dataTypesGuard (datatype_to_select : String) : Bool :=
  datatype_to_select.length != 0 && datatype_to_select != " "

/-- Collection-notes outer guard, line 913:
`len(notes) != 0 or len(download_date) != 0` — note: no `!= " "` test. -/
def collectionNotesGuard (collection_notes download_date : String) : Bool :=
  collection_notes.length != 0 || download_date.length != 0

/-- Upload-path guard, line 949. -/
def uploadPathGuard (path : String) : Bool :=
  path.length != 0 && path != " "

/-- Pre-title concatenation, line 643:
`pojecttitle = title if len(pre_title) == 0 else pre_title + " " + title` —
note: only emptiness is tested, `" "` counts as present. -/
def projectTitleText (title pre_title : String) : String :=
  if pre_title.length == 0 then title else pre_title ++ " " ++ title

/-! ## Keyword-token extraction (`chiara_upload.py`, lines 808-823)

The code builds `keywords_to_insert` from the keyword cells
(`if len(cell) > 0 and cell != " "`), removing quote and bracket characters
(`.replace(chr(39),"").replace("[","").replace("]","").replace(chr(34),"")`),
splitting on `","`, then for each token: `keyword = token.strip(" " + chr(39))`
and `if len(keyword) <= 2: continue` before the insert-and-confirm cycle.
String operations are embedded character-list-wise, matching Python
`str.replace(c, "")`, `str.split(",")` and `str.strip`. -/

/-- The single-quote character (codepoint 39). -/
def squoteChar : Char := Char.ofNat 39

/-- The double-quote character (codepoint 34). -/
def dquoteChar : Char := Char.ofNat 34

/-- `cell.replace(squote,"").replace("[","").replace("]","").replace(dquote,"")`
(line 816): removing every occurrence of those four characters. -/
def removeQuoteBracketChars (s : String) : String :=
  String.mk (s.data.filter
    (fun c => !(c == squoteChar || c == '[' || c == ']' || c == dquoteChar)))

/-- Python `str.split(",")` on a character list: `""` splits to `[""]`,
separators are not kept, empty fields are kept. -/
def splitCommaChars : List Char → List (List Char)
  | [] => [[]]
  | c :: rest =>
    match splitCommaChars rest with
    | [] => [[]]
    | t :: ts => if c == ',' then [] :: t :: ts else (c :: t) :: ts

/-- `more_keywordslist = more_keywords.split(",")` (line 817). -/
def splitComma (s : String) : List String :=
  (splitCommaChars s.data).map String.mk

/-- Python `token.strip(" '")` (line 821): drop leading and trailing
characters belonging to the set of space and single quote. -/
def stripSpaceQuote (s : String) : String :=
  String.mk
    (((s.data.dropWhile (fun c => c == ' ' || c == squoteChar)).reverse.dropWhile
      (fun c => c == ' ' || c == squoteChar)).reverse)

/-- `keywords_to_insert` (lines 813-818): concatenation, over the keyword
cells passing `keywordCellGuard`, of the comma-split of the quote/bracket
stripped cell text. -/
def keywordsToInsert (keywordcells : List String) : List String :=
  ((keywordcells.filter keywordCellGuard).map
    (fun cell => splitComma (removeQuoteBracketChars cell))).flatten

/-- The tokens actually submitted by the insert loop (lines 820-835): each
token is `strip`'d of spaces and single quotes and then skipped when its
length is at most 2 (`if len(keyword) <= 2: continue`). -/
def insertedKeywords (keywordcells : List String) : List String :=
  ((keywordsToInsert keywordcells).map stripSpaceQuote).filter
    (fun keyword => decide (keyword.length > 2))

/-! ## Upload-files step (`chiara_upload.py`, lines 947-992) -/

/-- Python `str(x)` of an optional string (`None` prints as `"None"`),
used for the `workspace_id` placeholder in the warning message. -/
def pyStr : Option String → String
  | none => "None"
  | some s => s

/-- Observable outcome of the upload step relative to `fill_project_forms`:
the row's warning list afterwards, the lines printed by `verbose_print`, 
whether the drag-and-drop loop was reached, and the value
`fill_project_forms` would return if the step is where it exits. -/
structure UploadOutcome where
  row_warnings : List String
  printed : List String
  dragDropAttempted : Bool
  returnValue : Option String

/-- Embeds lines 947-963: guarded by `len(path) != 0 and path != " "`;
when the file count differs from 2 the code builds `warning_msg`, passes it
only to `verbose_print` (line 961) — it is never appended to `row_warnings`
— and exits `fill_project_forms` with a bare `return` (line 962), so the
function returns `None` instead of the extracted workspace id and the
drag-and-drop loop is never reached. -/
def uploadStep (path : String) (filepaths_to_upload : List String)
    (workspace_id : Option String) (row_warnings : List String)
    (verbose : Bool) : UploadOutcome :=
  if path.length != 0 && path != " " then
    if filepaths_to_upload.length != 2 then
      let warning_msg := "The number of files to upload is not 2: "
        ++ toString filepaths_to_upload.length ++ " workspace id "
        ++ pyStr workspace_id
      { row_warnings := row_warnings
        printed := if verbose then ["⚠ " ++ warning_msg] else []
        dragDropAttempted := false
        returnValue := none }
    else
      { row_warnings := row_warnings
        printed := []
        dragDropAttempted := true
        returnValue := workspace_id }
  else
    { row_warnings := row_warnings
      printed := []
      dragDropAttempted := false
      returnValue := workspace_id }

/-! ## Output-record upsert (`main.py`, `update_output_data`, lines 743-797)

The output store is a pandas `DataFrame`; it is modelled as a column-name
list plus a list of rows, a row being an association list from column name
to an optional string (`none` is a missing/NaN cell).  `new_row` is a Python
dict with the same shape.  Pandas facts used by the embedding: a comparison
`df[col] == url` is `False` on NaN cells; `pd.concat` appends the row and
adds any columns of the new row that the frame lacks; assigning
`df.at[idx, key] = value` overwrites the cell. -/

/-- One output row: association list from column name to cell; `none` models
NaN/None. -/
abbrev OutRow := List (String × Option String)

/-- The output `DataFrame`: its columns and its rows. -/
structure OutputFrame where
  cols : List String
  rows : List OutRow
deriving DecidableEq, Repr

/-- The natural-key column, `'7_original_distribution_url'` (line 757). -/
def urlKey : String := "7_original_distribution_url"

/-- Reading row `r`'s cell in column `k`: first matching entry, `none` for a
missing cell (this also models `new_row.get(key)` defaulting to `None`). -/
def lookupCell (r : OutRow) (k : String) : Option String :=
  match r.find? (fun p => p.1 == k) with
  | some p => p.2
  | none => none

/-- `df.at[idx, k] = v` on a single row: overwrite the first entry for `k`,
or add the cell if the row lacks it. -/
def setCell (r : OutRow) (k : String) (v : Option String) : OutRow :=
  match r with
  | [] => [(k, v)]
  | p :: rest => if p.1 == k then (k, v) :: rest else p :: setCell rest k v

/-- `for key, value in new_row.items(): output_df.at[idx, key] = value`
(lines 774-775) applied to one row. -/
def updateRowFields (r : OutRow) (new_row : OutRow) : OutRow :=
  new_row.foldl (fun acc p => setCell acc p.1 p.2) r

/-- The pandas row mask `output_df['7_original_distribution_url'] == url`
(line 761) for one row: `True` only on a present, equal cell. -/
def matchesUrl (u : String) (r : OutRow) : Bool :=
  lookupCell r urlKey == some u

/-- Updating the first matching row (`idx = matching_indices[0]`, line 765),
leaving every other row untouched. -/
def updateFirstMatch (rows : List OutRow) (u : String) (new_row : OutRow) :
    List OutRow :=
  match rows with
  | [] => []
  | r :: rest =>
    if matchesUrl u r then updateRowFields r new_row :: rest
    else r :: updateFirstMatch rest u new_row

/-- `pd.concat([output_df, pd.DataFrame([new_row])], ignore_index=True)`
(lines 780, 785): the row is appended and columns of `new_row` missing from
the frame are added. -/
def appendRow (df : OutputFrame) (new_row : OutRow) : OutputFrame :=
  { cols := df.cols ++ (new_row.map Prod.fst).filter (fun k => !(df.cols.contains k))
    rows := df.rows ++ [new_row] }

/-- Embeds `update_output_data` (lines 743-797) up to the final `to_csv`
persistence.  `url = new_row.get('7_original_distribution_url')`; the upsert
path is taken only `if url and '7_original_distribution_url' in
output_df.columns` (line 760) — a `None` or empty url falls through to the
append branch, as does a frame without the url column. -/
def update_output_data (df : OutputFrame) (new_row : OutRow) : OutputFrame :=
  match lookupCell new_row urlKey with
  | some u =>
    if u != "" && df.cols.contains urlKey then
      if (df.rows.filter (matchesUrl u)).isEmpty then appendRow df new_row
      else { cols := df.cols, rows := updateFirstMatch df.rows u new_row }
    else appendRow df new_row
  | none => appendRow df new_row

/-- `new_row.get('7_original_distribution_url')` is truthy in Python:
present and non-empty. -/
def urlTruthy (new_row : OutRow) : Bool :=
  match lookupCell new_row urlKey with
  | some u => u != ""
  | none => false

/-- A well-formed frame, as pandas guarantees: every row's cells lie in the
frame's columns. -/
def OutputFrame.WF (df : OutputFrame) : Prop :=
  ∀ r ∈ df.rows, ∀ p ∈ r, p.1 ∈ df.cols

instance (df : OutputFrame) : Decidable df.WF := by
  unfold OutputFrame.WF
  infer_instance

/-! ## Correlation-id write-back (`chiara_upload.py`, `update_csv_workspace_id`,
lines 478-523)

Only the `datalumos_id` column matters; the file's stored column is a list of
strings.  Pandas facts embedded: `pd.read_csv` parses an empty field as NaN
(`PdCell.nan`); `.astype(str)` turns NaN into the literal string `"nan"`;
`df.to_csv` then stores that literal.  The function maps `.astype(str)` over
the whole column (line 500) before assigning the one target cell
(`df.loc[row_number - 1, 'datalumos_id'] = str(workspace_id)`, line 503) and
rewriting the whole file (line 506). -/

/-- A `datalumos_id` cell as pandas holds it after `read_csv`. -/
inductive PdCell where
  | nan
  | val (s : String)
deriving DecidableEq, Repr

/-- `pd.read_csv` on one stored field: the empty field becomes NaN. -/
def readCell (s : String) : PdCell :=
  if s == "" then .nan else .val s

/-- `.astype(str)` on one cell: NaN becomes the literal string `"nan"`. -/
def astypeStrCell : PdCell → String
  | .nan => "nan"
  | .val s => s

/-- Embeds the successful path of `update_csv_workspace_id` (lines 492-506)
restricted to the `datalumos_id` column: read the stored column, coerce every
cell to string, assign the target cell (1-indexed `row_number` maps to index
`row_number - 1`), persist the whole column. -/
def update_csv_workspace_id (stored : List String) (row_number : Nat)
    (workspace_id : String) : List String :=
  (stored.map (fun s => astypeStrCell (readCell s))).set (row_number - 1) workspace_id


/-! ## Concrete data used by the claim instances -/

/-- A row processor that raises the batch-fatal signal exactly on row 2. -/
def procFatalOn2 : Nat → ProcResult := fun n => if n = 2 then .fatal else .ok

/-- The keyword cell of the spec example: the text A, 'B', [C]. -/
def exampleKeywordCell : String :=
  "A, " ++ String.mk [squoteChar] ++ "B" ++ String.mk [squoteChar] ++ ", [C]"

/-- A variant of the spec example whose tokens survive the length filter:
the text AAA, 'BBB', [CCC]. -/
def longKeywordCell : String :=
  "AAA, " ++ String.mk [squoteChar] ++ "BBB" ++ String.mk [squoteChar] ++ ", [CCC]"

/-- An output row keyed by the natural key. -/
def dupUrlRow : OutRow := [(urlKey, some "http://x")]

/-- An output store that already holds two rows with the same natural key. -/
def dupFrame : OutputFrame := { cols := [urlKey], rows := [dupUrlRow, dupUrlRow] }

/-- A well-formed one-row output store for the upsert witness. -/
def wFrame : OutputFrame :=
  { cols := [urlKey, "4_title"], rows := [[(urlKey, some "http://x"), ("4_title", some "Old")]] }

/-- The upserted row for the upsert witness. -/
def wNewRow : OutRow := [(urlKey, some "http://x"), ("4_title", some "New")]

theorem runBatch_all_ok (proc : α → ProcResult) (h : ∀ x, proc x = .ok) :
    ∀ l : List α, runBatch proc l = (l, none) := by
  intro l
  induction l with
  | nil => rfl
  | cons x xs ih => simp [runBatch, h x, ih]

theorem runAll_all_ok (proc : α → ProcResult) (h : ∀ x, proc x = .ok) :
    ∀ bs : List (List α), runAll proc bs = bs.flatten
  | [] => by simp [runAll]
  | [] :: bs => by
    rw [runAll]
    · simp [runAll_all_ok proc h bs]
  | (x :: xs) :: bs => by
    rw [runAll]
    simp only [h x]
    rw [runAll_all_ok proc h (xs :: bs)]
    simp
termination_by bs => (bs.map List.length).sum + bs.length
decreasing_by
  · simp only [List.map_cons, List.sum_cons, List.length_cons, List.length_nil]
    omega
  · simp only [List.map_cons, List.sum_cons, List.length_cons]
    omega

theorem makeBatches_flatten (b : Nat) (hb : 0 < b) :
    ∀ rows : List α, (makeBatches b rows).flatten = rows
  | [] => by simp [makeBatches]
  | x :: rest => by
    obtain ⟨b', rfl⟩ : ∃ b', b = b' + 1 := ⟨b - 1, by omega⟩
    rw [makeBatches]
    simp only [List.flatten_cons, Nat.add_sub_cancel]
    rw [makeBatches_flatten (b' + 1) hb (rest.drop b')]
    simp [List.take_succ_cons]
termination_by rows => rows.length
decreasing_by
  simp only [List.length_cons, List.length_drop]
  omega

theorem makeBatches_mem_shape (b : Nat) (hb : 0 < b) :
    ∀ rows : List α, ∀ batch ∈ makeBatches b rows, batch ≠ [] ∧ batch.length ≤ b
  | [] => by simp [makeBatches]
  | x :: rest => by
    intro batch hmem
    rw [makeBatches] at hmem
    rcases List.mem_cons.mp hmem with h | h
    · subst h
      obtain ⟨b', rfl⟩ : ∃ b', b = b' + 1 := ⟨b - 1, by omega⟩
      constructor
      · simp [List.take_succ_cons]
      · exact List.length_take_le _ _
    · exact makeBatches_mem_shape b hb (rest.drop (b - 1)) batch h
termination_by rows => rows.length
decreasing_by
  simp only [List.length_cons, List.length_drop]
  omega

theorem makeBatches_eq_nil_iff (b : Nat) (rows : List α) :
    makeBatches b rows = [] ↔ rows = [] := by
  cases rows with
  | nil => simp [makeBatches]
  | cons x rest => rw [makeBatches]; simp

theorem makeBatches_full_except_last (b : Nat) (hb : 0 < b) :
    ∀ rows : List α, ∀ batch ∈ (makeBatches b rows).dropLast, batch.length = b
  | [] => by simp [makeBatches]
  | x :: rest => by
    intro batch hmem
    rw [makeBatches] at hmem
    by_cases hrest : makeBatches b (rest.drop (b - 1)) = []
    · rw [hrest] at hmem
      simp at hmem
    · rw [List.dropLast_cons_of_ne_nil hrest] at hmem
      rcases List.mem_cons.mp hmem with h | h
      · subst h
        have hne : rest.drop (b - 1) ≠ [] := by
          intro hcon
          exact hrest ((makeBatches_eq_nil_iff b _).mpr hcon)
        have hlen : b - 1 < rest.length := by
          by_contra hcon
          exact hne (List.drop_eq_nil_of_le (by omega))
        rw [List.length_take]
        simp only [List.length_cons]
        omega
      · exact makeBatches_full_except_last b hb (rest.drop (b - 1)) batch h
termination_by rows => rows.length
decreasing_by
  simp only [List.length_cons, List.length_drop]
  omega

/-! ## Helper lemmas about rows and the upsert -/

theorem find?_setCell_self (r : OutRow) (k : String) (v : Option String) :
    (setCell r k v).find? (fun p => p.1 == k) = some (k, v) := by
  induction r with
  | nil => simp [setCell, List.find?]
  | cons p rest ih =>
    by_cases h : p.1 = k
    · simp [setCell, h, List.find?]
    · have hb : (p.1 == k) = false := beq_eq_false_iff_ne.mpr h
      simp [setCell, hb, List.find?, ih]

theorem find?_setCell_ne (r : OutRow) (k k' : String) (v : Option String)
    (h : k' ≠ k) :
    (setCell r k v).find? (fun p => p.1 == k') = r.find? (fun p => p.1 == k') := by
  induction r with
  | nil =>
    have hb : (k == k') = false := beq_eq_false_iff_ne.mpr (Ne.symm h)
    simp [setCell, List.find?, hb]
  | cons p rest ih =>
    by_cases hpk : p.1 = k
    · have hb : (p.1 == k) = true := beq_iff_eq.mpr hpk
      have hb' : (k == k') = false := beq_eq_false_iff_ne.mpr (Ne.symm h)
      have hb'' : (p.1 == k') = false := by
        rw [hpk]; exact hb'
      simp [setCell, hb, List.find?, hb', hb'']
    · have hb : (p.1 == k) = false := beq_eq_false_iff_ne.mpr hpk
      by_cases hpk' : p.1 = k'
      · have hb2 : (p.1 == k') = true := beq_iff_eq.mpr hpk'
        simp [setCell, hb, List.find?, hb2]
      · have hb2 : (p.1 == k') = false := beq_eq_false_iff_ne.mpr hpk'
        simp [setCell, hb, List.find?, hb2, ih]

theorem find?_nodup_mem (r : OutRow) (k : String) (v : Option String)
    (hnd : (r.map Prod.fst).Nodup) (hmem : (k, v) ∈ r) :
    r.find? (fun p => p.1 == k) = some (k, v) := by
  induction r with
  | nil => simp at hmem
  | cons p rest ih =>
    rcases List.mem_cons.mp hmem with h | h
    · subst h
      simp [List.find?]
    · have hk : k ∈ rest.map Prod.fst := List.mem_map.mpr ⟨(k, v), h, rfl⟩
      have hp1 : p.1 ≠ k := by
        intro hcon
        have := (List.nodup_cons.mp hnd).1
        rw [hcon] at this
        exact this hk
      have hb : (p.1 == k) = false := beq_eq_false_iff_ne.mpr hp1
      simp only [List.find?, hb]
      exact ih (List.nodup_cons.mp hnd).2 h

theorem find?_updateRowFields_not_mem (r : OutRow) (new_row : OutRow) (k : String)
    (h : k ∉ new_row.map Prod.fst) :
    (updateRowFields r new_row).find? (fun p => p.1 == k)
      = r.find? (fun p => p.1 == k) := by
  induction new_row generalizing r with
  | nil => rfl
  | cons q rest ih =>
    have hk : k ≠ q.1 := by
      intro hcon
      exact h (by simp [hcon])
    have hrest : k ∉ rest.map Prod.fst := fun hc => h (by simp [hc])
    show (updateRowFields (setCell r q.1 q.2) rest).find? _ = _
    rw [ih (setCell r q.1 q.2) hrest, find?_setCell_ne r q.1 k q.2 hk]

theorem find?_updateRowFields_mem (r : OutRow) (new_row : OutRow) (k : String)
    (v : Option String) (hnd : (new_row.map Prod.fst).Nodup)
    (hmem : (k, v) ∈ new_row) :
    (updateRowFields r new_row).find? (fun p => p.1 == k) = some (k, v) := by
  induction new_row generalizing r with
  | nil => simp at hmem
  | cons q rest ih =>
    rcases List.mem_cons.mp hmem with h | h
    · subst h
      have hnot : k ∉ rest.map Prod.fst := by
        simpa using (List.nodup_cons.mp hnd).1
      show (updateRowFields (setCell r k v) rest).find? _ = _
      rw [find?_updateRowFields_not_mem _ _ _ hnot, find?_setCell_self]
    · show (updateRowFields (setCell r q.1 q.2) rest).find? _ = _
      exact ih (setCell r q.1 q.2) (List.nodup_cons.mp hnd).2 h

theorem lookupCell_updateRowFields_mem (r : OutRow) (new_row : OutRow)
    (k : String) (v : Option String) (hnd : (new_row.map Prod.fst).Nodup)
    (hmem : (k, v) ∈ new_row) :
    lookupCell (updateRowFields r new_row) k = v := by
  unfold lookupCell
  rw [find?_updateRowFields_mem r new_row k v hnd hmem]

theorem setCell_of_find? (r : OutRow) (k : String) (v : Option String)
    (h : r.find? (fun p => p.1 == k) = some (k, v)) : setCell r k v = r := by
  induction r with
  | nil => simp [List.find?] at h
  | cons p rest ih =>
    by_cases hpk : p.1 = k
    · have hb : (p.1 == k) = true := beq_iff_eq.mpr hpk
      simp only [List.find?, hb] at h
      have hp : p = (k, v) := by
        cases p
        simp at h
        rw [h.1, h.2]
      simp [setCell, hb, hp]
    · have hb : (p.1 == k) = false := beq_eq_false_iff_ne.mpr hpk
      simp only [List.find?, hb] at h
      simp [setCell, hb, ih h]

theorem updateRowFields_fixed (r : OutRow) (sub : OutRow)
    (h : ∀ p ∈ sub, r.find? (fun q => q.1 == p.1) = some p) :
    updateRowFields r sub = r := by
  induction sub with
  | nil => rfl
  | cons q rest ih =>
    show updateRowFields (setCell r q.1 q.2) rest = r
    have hq : r.find? (fun t => t.1 == q.1) = some q := h q (by simp)
    have hq' : setCell r q.1 q.2 = r := by
      have : r.find? (fun t => t.1 == q.1) = some (q.1, q.2) := by
        simpa using hq
      exact setCell_of_find? r q.1 q.2 this
    rw [hq']
    exact ih (fun p hp => h p (by simp [hp]))

theorem updateRowFields_self (new_row : OutRow)
    (hnd : (new_row.map Prod.fst).Nodup) :
    updateRowFields new_row new_row = new_row := by
  apply updateRowFields_fixed
  intro p hp
  have := find?_nodup_mem new_row p.1 p.2 hnd (by simpa using hp)
  simpa using this

theorem updateRowFields_idem (r : OutRow) (new_row : OutRow)
    (hnd : (new_row.map Prod.fst).Nodup) :
    updateRowFields (updateRowFields r new_row) new_row
      = updateRowFields r new_row := by
  apply updateRowFields_fixed
  intro p hp
  have := find?_updateRowFields_mem r new_row p.1 p.2 hnd (by simpa using hp)
  simpa using this

theorem lookupCell_eq_some_mem (r : OutRow) (k : String) (u : String)
    (h : lookupCell r k = some u) : (k, some u) ∈ r := by
  unfold lookupCell at h
  cases hf : r.find? (fun p => p.1 == k) with
  | none => rw [hf] at h; simp at h
  | some p =>
    rw [hf] at h
    have hmem := List.mem_of_find?_eq_some hf
    have hpred := List.find?_some hf
    have hp1 : p.1 = k := beq_iff_eq.mp hpred
    have : p = (k, some u) := by
      cases p
      simp only at hp1 h
      rw [hp1, h]
    rwa [this] at hmem

theorem matchesUrl_updateRowFields (r : OutRow) (new_row : OutRow) (u : String)
    (hnd : (new_row.map Prod.fst).Nodup)
    (hurl : lookupCell new_row urlKey = some u) :
    matchesUrl u (updateRowFields r new_row) = true := by
  have hmem : (urlKey, some u) ∈ new_row := lookupCell_eq_some_mem _ _ _ hurl
  unfold matchesUrl
  rw [lookupCell_updateRowFields_mem r new_row urlKey (some u) hnd hmem]
  simp

theorem updateFirstMatch_length (rows : List OutRow) (u : String)
    (new_row : OutRow) :
    (updateFirstMatch rows u new_row).length = rows.length := by
  induction rows with
  | nil => rfl
  | cons r rest ih =>
    by_cases h : matchesUrl u r
    · simp [updateFirstMatch, h]
    · simp [updateFirstMatch, h, ih]

theorem filter_updateFirstMatch (rows : List OutRow) (u : String)
    (new_row : OutRow)
    (hm : ∀ r : OutRow, matchesUrl u (updateRowFields r new_row) = true) :
    (updateFirstMatch rows u new_row).filter (matchesUrl u)
      = match rows.filter (matchesUrl u) with
        | [] => []
        | r0 :: rest => updateRowFields r0 new_row :: rest := by
  induction rows with
  | nil => rfl
  | cons r rest ih =>
    by_cases h : matchesUrl u r
    · simp [updateFirstMatch, h, List.filter_cons, hm r]
    · have hb : matchesUrl u r = false := eq_false_of_ne_true (by simpa using h)
      simp only [updateFirstMatch, hb, Bool.false_eq_true, if_false,
        List.filter_cons, ih]

theorem updateFirstMatch_idem (rows : List OutRow) (u : String)
    (new_row : OutRow) (hnd : (new_row.map Prod.fst).Nodup)
    (hurl : lookupCell new_row urlKey = some u) :
    updateFirstMatch (updateFirstMatch rows u new_row) u new_row
      = updateFirstMatch rows u new_row := by
  induction rows with
  | nil => rfl
  | cons r rest ih =>
    by_cases h : matchesUrl u r
    · simp only [updateFirstMatch, h, if_true]
      simp [updateFirstMatch, matchesUrl_updateRowFields r new_row u hnd hurl,
        updateRowFields_idem r new_row hnd]
    · have hb : matchesUrl u r = false := eq_false_of_ne_true (by simpa using h)
      simp only [updateFirstMatch, hb, Bool.false_eq_true, if_false, ih]

theorem updateFirstMatch_append_nomatch (rows l : List OutRow) (u : String)
    (new_row : OutRow) (h : ∀ r ∈ rows, matchesUrl u r = false) :
    updateFirstMatch (rows ++ l) u new_row = rows ++ updateFirstMatch l u new_row := by
  induction rows with
  | nil => rfl
  | cons r rest ih =>
    have hr : matchesUrl u r = false := h r (by simp)
    simp only [List.cons_append, updateFirstMatch, hr, Bool.false_eq_true, if_false,
      List.append_eq]
    rw [ih (fun r' hr' => h r' (by simp [hr']))]

theorem lookupCell_none_of_cols (r : OutRow) (cols : List String) (k : String)
    (hsub : ∀ p ∈ r, p.1 ∈ cols) (hk : k ∉ cols) : lookupCell r k = none := by
  unfold lookupCell
  have : r.find? (fun p => p.1 == k) = none := by
    rw [List.find?_eq_none]
    intro p hp hpred
    exact hk (beq_iff_eq.mp hpred ▸ hsub p hp)
  rw [this]

/-! ## Claims -/

/-- C2 (code bug): the inline-error condition (non-empty `#errormsg` after
the proceed / return-to-workspace transitions) is raised as
`BatchRestartException`, but that exception is caught by
`publish_workspace`'s own `except Exception` retry handler
(`BatchRestartException` subclasses `Exception`): on the failing input where
both attempts surface the inline error, the function returns an ordinary
`(False, error)` — turned into a mere row warning at the call site — and no
exception ever escapes toward the Batch Restart Controller, so the session
teardown and work-item resplitting of `main` (line 1825 onward) are
unreachable from this condition. -/
theorem c2_batch_fatal_swallowed :
    publishAttempt (.inlineError "project validation failed")
      = .error (.batchRestart "Error message detected: project validation failed")
    ∧ publish_workspace (.inlineError "project validation failed")
        (.inlineError "project validation failed")
      = .ok (false, some
          "Error during publishing workflow: Error message detected: project validation failed")
    ∧ processPublishStep
        (publish_workspace (.inlineError "project validation failed")
          (.inlineError "project validation failed")) []
      = .ok (false,
          ["Error during publishing workflow: Error message detected: project validation failed"])
    ∧ ∀ a1 a2 : AttemptOutcome, escapesToController (publish_workspace a1 a2) = false := by
  refine ⟨rfl, rfl, rfl, ?_⟩
  intro a1 a2
  cases a1 <;> cases a2 <;> rfl

/-- C8: the publish sub-workflow retries exactly once on any internal
failure: a first attempt that throws followed by a successful second attempt
returns `(True, None)`, and the row outcome gains no publish-failure
warning; a first success never retries; two failures give up with an
ordinary failure return. -/
theorem c8_publish_retry_once (m : String) (w : List String) :
    publish_workspace (.exc m) .success = .ok (true, none)
    ∧ processPublishStep (publish_workspace (.exc m) .success) w = .ok (true, w)
    ∧ (∀ a : AttemptOutcome, publish_workspace .success a = .ok (true, none))
    ∧ (∀ m2 : String, publish_workspace (.exc m) (.exc m2)
        = .ok (false, some ("Error during publishing workflow: " ++ m2))) :=
  ⟨rfl, rfl, fun _ => rfl, fun _ => rfl⟩

/-- C4 (counterexample): the time-period guard (line 867) does not treat a
single space like an absent field: with the start field `" "` and the end
field `""` the step is attempted, while with both fields `""` it is
skipped — so the claimed blanket equivalence of `""` and `" "` across every
guard fails. -/
theorem c4_space_sentinel_cex :
    timePeriodGuard " " "" = true ∧ timePeriodGuard "" "" = false ∧
    timePeriodGuard " " "" ≠ timePeriodGuard "" "" := by
  refine ⟨rfl, rfl, ?_⟩
  decide

/-- C4 (amended): the `""`-vs-`" "` equivalence holds for the agency,
summary, distribution-URL, keyword-cell, geographic-coverage, data-types
and upload-path guards (each skips on both sentinels), but not for the
time-period guard, the collection-notes guard, or the pre-title
concatenation, which test only emptiness and treat `" "` as present. -/
theorem c4_guard_sentinels :
    (agencyGuard "" = false ∧ agencyGuard " " = false)
    ∧ (summaryGuard "" = false ∧ summaryGuard " " = false)
    ∧ (originalUrlGuard "" = false ∧ originalUrlGuard " " = false)
    ∧ (keywordCellGuard "" = false ∧ keywordCellGuard " " = false)
    ∧ (geographicGuard "" = false ∧ geographicGuard " " = false)
    ∧ (dataTypesGuard "" = false ∧ dataTypesGuard " " = false)
    ∧ (uploadPathGuard "" = false ∧ uploadPathGuard " " = false)
    ∧ (∀ e : String, timePeriodGuard " " e = true)
    ∧ timePeriodGuard "" "" = false
    ∧ (∀ d : String, collectionNotesGuard " " d = true)
    ∧ collectionNotesGuard "" "" = false
    ∧ (∀ t : String, projectTitleText t " " = " " ++ " " ++ t)
    ∧ (∀ t : String, projectTitleText t "" = t)
    ∧ projectTitleText "T" " " ≠ projectTitleText "T" "" := by
  refine ⟨⟨rfl, rfl⟩, ⟨rfl, rfl⟩, ⟨rfl, rfl⟩, ⟨rfl, rfl⟩, ⟨rfl, rfl⟩, ⟨rfl, rfl⟩,
    ⟨rfl, rfl⟩, fun e => rfl, rfl, fun d => rfl, rfl, fun t => rfl, fun t => rfl, ?_⟩
  decide

/-- C6 (counterexample): on the spec's example cell `A, 'B', [C]` every
token strips to a single character, so the length filter
(`if len(keyword) <= 2: continue`, line 822) discards all of them: the
inserted token list is `[]`, not `["A", "B", "C"]`. -/
theorem c6_short_tokens_cex :
    insertedKeywords [exampleKeywordCell] = []
    ∧ insertedKeywords [exampleKeywordCell] ≠ ["A", "B", "C"] := by
  refine ⟨by decide, ?_⟩
  decide

/-- C6 (amended): keyword extraction strips quote and bracket characters,
splits on commas, trims spaces and quotes from each token and discards
tokens of length at most 2; on the example cell `A, 'B', [C]` this yields no
tokens (each survives only as a single character), while the variant
`AAA, 'BBB', [CCC]` yields `["AAA", "BBB", "CCC"]`; every inserted token has
length greater than 2. -/
theorem c6_keyword_extraction :
    insertedKeywords [exampleKeywordCell] = []
    ∧ insertedKeywords [longKeywordCell] = ["AAA", "BBB", "CCC"]
    ∧ keywordsToInsert [exampleKeywordCell] = ["A", " B", " C"]
    ∧ ∀ cells : List String,
        (insertedKeywords cells).all (fun keyword => decide (keyword.length > 2)) = true := by
  refine ⟨by decide, by decide, by decide, ?_⟩
  intro cells
  rw [List.all_eq_true]
  intro k hk
  unfold insertedKeywords at hk
  exact (List.mem_filter.mp hk).2

/-- C7 (counterexample): with a present upload path and a single file found,
the upload step exits early without touching the row's warning list (the
message goes only to `verbose_print`, nothing in non-verbose mode), so the
claim's "Warning recorded for that row" is false; the drag-and-drop loop is
indeed not attempted, and the early bare `return` also discards the
workspace id. -/
theorem c7_no_warning_recorded_cex :
    (uploadStep "files" ["a.pdf"] (some "239181") [] false).row_warnings = []
    ∧ (uploadStep "files" ["a.pdf"] (some "239181") [] false).printed = []
    ∧ (uploadStep "files" ["a.pdf"] (some "239181") [] false).dragDropAttempted = false
    ∧ (uploadStep "files" ["a.pdf"] (some "239181") [] false).returnValue = none := by
  exact ⟨rfl, rfl, rfl, rfl⟩

/-- C7 (amended): when the upload path is present and the number of files
found differs from 2, the step returns early — the drag-and-drop loop is not
attempted — but no warning is recorded in the row's warning list: the
message is only printed when verbose mode is on, and the early `return`
makes `fill_project_forms` return `None`. -/
theorem c7_upload_count_guard (path : String) (filepaths : List String)
    (workspace_id : Option String) (row_warnings : List String) (verbose : Bool)
    (hpath : (path.length != 0 && path != " ") = true)
    (hn : (filepaths.length != 2) = true) :
    uploadStep path filepaths workspace_id row_warnings verbose
      = { row_warnings := row_warnings
          printed := if verbose then
              ["⚠ " ++ ("The number of files to upload is not 2: "
                ++ toString filepaths.length ++ " workspace id " ++ pyStr workspace_id)]
            else []
          dragDropAttempted := false
          returnValue := none } := by
  unfold uploadStep
  rw [if_pos hpath, if_pos hn]

/-- C7 witness: the amended statement at the counterexample's input. -/
theorem c7_upload_count_guard_witness :
    uploadStep "files" ["a.pdf"] (some "239181") [] true
      = { row_warnings := []
          printed := if true then
              ["⚠ " ++ ("The number of files to upload is not 2: "
                ++ toString (["a.pdf"] : List String).length ++ " workspace id "
                ++ pyStr (some "239181"))]
            else []
          dragDropAttempted := false
          returnValue := none } :=
  c7_upload_count_guard "files" ["a.pdf"] (some "239181") [] true rfl rfl

/-- C5: with no batch-fatal error, the controller partitions the ordered
work list into contiguous batches of the configured size — every batch
non-empty and of length at most `b`, all but possibly the last full — and
the row processor is invoked exactly once per item, in the original order
(the invocation trace of `runAll` is the work list itself). -/
theorem c5_controller_visits_each_once (b : Nat) (rows : List α)
    (proc : α → ProcResult) (hb : 0 < b) (hok : ∀ x, proc x = .ok) :
    runAll proc (makeBatches b rows) = rows
    ∧ (makeBatches b rows).flatten = rows
    ∧ (∀ batch ∈ makeBatches b rows, batch ≠ [] ∧ batch.length ≤ b)
    ∧ (∀ batch ∈ (makeBatches b rows).dropLast, batch.length = b) := by
  refine ⟨?_, makeBatches_flatten b hb rows, makeBatches_mem_shape b hb rows,
    makeBatches_full_except_last b hb rows⟩
  rw [runAll_all_ok proc hok, makeBatches_flatten b hb rows]

/-- C5 witness: seven rows at the source's `batch_size = 5`, no fatal
rows: every row is visited exactly once, in order. -/
theorem c5_controller_visits_each_once_witness :
    runAll (fun _ : Nat => ProcResult.ok) (makeBatches batch_size [1, 2, 3, 4, 5, 6, 7])
      = [1, 2, 3, 4, 5, 6, 7] :=
  (c5_controller_visits_each_once batch_size [1, 2, 3, 4, 5, 6, 7]
    (fun _ => ProcResult.ok) (by decide) (fun _ => rfl)).1

/-- C1 (counterexample): batch `[1, 2, 3, 4, 5]`, batch-fatal failure at
item `k = 2`: the code reschedules `batch_rows[2:] = [3, 4, 5]`, not the
claim's items `k..B = [2, 3, 4, 5]` — the failed item 2 is dropped and never
retried. -/
theorem c1_failed_item_dropped_cex :
    runBatch procFatalOn2 [1, 2, 3, 4, 5] = ([1, 2], some [3, 4, 5])
    ∧ runBatch procFatalOn2 [1, 2, 3, 4, 5] ≠ ([1, 2], some [2, 3, 4, 5])
    ∧ (2 : Nat) ∉ [3, 4, 5] := by decide

/-- C1 (amended): when the row processor raises the batch-fatal signal at
item `x`, preceded in its batch by `pre` (all processed normally), the
controller stops the session right after `x` (attempt trace `pre ++ [x]`)
and reschedules exactly the items strictly after the failed one (`post`,
i.e. items `k+1..B`, dropping the failed item) as one new batch placed
immediately after the current batch, so it runs before the originally-later
batches `bs`; when `x` was last (`post = []`) no new batch is inserted; the
items before the failure are not reprocessed in the restarted batch. -/
theorem c1_batch_restart_reschedules_tail (proc : α → ProcResult) (x : α)
    (pre post : List α) (bs : List (List α))
    (hpre : ∀ y ∈ pre, proc y = .ok) (hx : proc x = .fatal) :
    runBatch proc (pre ++ x :: post) = (pre ++ [x], some post)
    ∧ runAll proc ((pre ++ x :: post) :: bs)
      = (pre ++ [x]) ++ runAll proc (if post.isEmpty then bs else post :: bs) := by
  induction pre with
  | nil =>
    constructor
    · simp [runBatch, hx]
    · simp [runAll, hx]
  | cons y pre' ih =>
    have hy : proc y = .ok := hpre y (by simp)
    have hpre' : ∀ z ∈ pre', proc z = .ok := fun z hz => hpre z (by simp [hz])
    obtain ⟨ih1, ih2⟩ := ih hpre'
    constructor
    · show runBatch proc (y :: (pre' ++ x :: post)) = (y :: pre' ++ [x], some post)
      simp only [runBatch, hy]
      rw [ih1]
      simp
    · have hstep : runAll proc ((y :: (pre' ++ x :: post)) :: bs)
          = y :: runAll proc ((pre' ++ x :: post) :: bs) := by
        simp [runAll, hy]
      rw [List.cons_append, hstep, ih2]
      simp

/-- C1 witness: the amended statement at the counterexample's batch with a
later batch `[6, 7]` present. -/
theorem c1_batch_restart_reschedules_tail_witness :
    runBatch procFatalOn2 ([1] ++ 2 :: [3, 4, 5]) = ([1] ++ [2], some [3, 4, 5])
    ∧ runAll procFatalOn2 (([1] ++ 2 :: [3, 4, 5]) :: [[6, 7]])
      = ([1] ++ [2]) ++ runAll procFatalOn2
          (if ([3, 4, 5] : List Nat).isEmpty then [[6, 7]] else [3, 4, 5] :: [[6, 7]]) :=
  c1_batch_restart_reschedules_tail procFatalOn2 2 [1] [3, 4, 5] [[6, 7]]
    (by decide) (by decide)

/-- C9: a new row whose natural key is missing or empty, or an output store
without the natural-key column, always appends; applying the upsert twice
with the same key-less row appends two rows — the no-duplicate guarantee
holds only for rows carrying the key. -/
theorem c9_urlless_always_appends (df : OutputFrame) (new_row : OutRow)
    (h : urlTruthy new_row = false ∨ urlKey ∉ df.cols) :
    (update_output_data df new_row).rows = df.rows ++ [new_row]
    ∧ (urlTruthy new_row = false →
        (update_output_data (update_output_data df new_row) new_row).rows
          = df.rows ++ [new_row, new_row]) := by
  have happend : ∀ dfx : OutputFrame, urlTruthy new_row = false ∨ urlKey ∉ dfx.cols →
      (update_output_data dfx new_row).rows = dfx.rows ++ [new_row] := by
    intro dfx hx
    unfold update_output_data
    cases hl : lookupCell new_row urlKey with
    | none => simp [appendRow]
    | some u =>
      rcases hx with hx | hx
      · have hu : (u != "") = false := by
          unfold urlTruthy at hx; rw [hl] at hx; exact hx
        simp [hu, appendRow]
      · simp [appendRow, hx]
  refine ⟨happend df h, ?_⟩
  intro ht
  rw [happend (update_output_data df new_row) (Or.inl ht), happend df (Or.inl ht)]
  simp

/-- C9 witness: upserting a row with no natural-key cell into an empty
store appends it. -/
theorem c9_urlless_always_appends_witness :
    (update_output_data { cols := [], rows := [] } [("4_title", some "T")]).rows
      = [[("4_title", some "T")]] := by
  have h := (c9_urlless_always_appends { cols := [], rows := [] }
    [("4_title", some "T")] (Or.inl rfl)).1
  simpa using h

/-- C10: the correlation-id write-back coerces the whole `datalumos_id`
column to string before assigning the one target cell and persists the whole
column, so every non-target cell is stored as
`astypeStrCell (readCell cell)`; in particular a non-target cell that was
stored empty (read back as NaN) is rewritten as the literal string `"nan"`,
not left unchanged. -/
theorem c10_nan_writeback (stored : List String) (row_number i : Nat)
    (workspace_id : String) (hne : i ≠ row_number - 1) :
    (update_csv_workspace_id stored row_number workspace_id)[i]?
      = (stored[i]?).map (fun s => astypeStrCell (readCell s))
    ∧ (stored[i]? = some "" →
        (update_csv_workspace_id stored row_number workspace_id)[i]? = some "nan")
    ∧ (stored[i]? = some "" →
        (update_csv_workspace_id stored row_number workspace_id)[i]?
          ≠ stored[i]?) := by
  have h1 : (update_csv_workspace_id stored row_number workspace_id)[i]?
      = (stored[i]?).map (fun s => astypeStrCell (readCell s)) := by
    unfold update_csv_workspace_id
    rw [List.getElem?_set_ne (Ne.symm hne), List.getElem?_map]
  refine ⟨h1, ?_, ?_⟩
  · intro he
    rw [h1, he]
    rfl
  · intro he
    rw [h1, he]
    simp [readCell, astypeStrCell]

/-- C10 witness: a two-row file where row 1's `datalumos_id` is empty; the
write-back targeting row 2 stores row 1's cell as `"nan"`. -/
theorem c10_nan_writeback_witness :
    (update_csv_workspace_id ["", "123"] 2 "456")[0]? = some "nan" :=
  (c10_nan_writeback ["", "123"] 2 0 "456" (by decide)).2.1 rfl

/-- C3 (counterexample): a store that already holds two rows with the same
natural key keeps both: the upsert updates only the first matching row
(`idx = matching_indices[0]`), so after applying it twice the store still
has two rows for the key — "exactly one row for that key" fails for such
initial stores. -/
theorem c3_preexisting_duplicates_cex :
    ((update_output_data (update_output_data dupFrame
        [(urlKey, some "http://x"), ("4_title", some "T")])
        [(urlKey, some "http://x"), ("4_title", some "T")]).rows.filter
      (matchesUrl "http://x")).length = 2
    ∧ (2 : Nat) ≠ 1 := by decide

/-- C3 (amended): for an upserted row carrying a non-empty natural key (and
no duplicate field names), the upsert is idempotent — applying it twice
yields the same store as applying it once; if the well-formed store starts
with at most one row for that key, then after either application it holds
exactly one row for the key and that row carries all the given field
values; a matching row is updated in place (row count unchanged) and with
no match the row is appended.  A store that already holds several rows for
the key keeps them all (only the first is updated) — see the
counterexample. -/
theorem c3_upsert_idempotent (df : OutputFrame) (new_row : OutRow) (u : String)
    (hwf : df.WF) (hurl : lookupCell new_row urlKey = some u) (hu : u ≠ "")
    (hnd : (new_row.map Prod.fst).Nodup) :
    update_output_data (update_output_data df new_row) new_row
      = update_output_data df new_row
    ∧ ((df.rows.filter (matchesUrl u)).length ≤ 1 →
        ∃ r, (update_output_data df new_row).rows.filter (matchesUrl u) = [r]
          ∧ ∀ p ∈ new_row, lookupCell r p.1 = p.2)
    ∧ (df.rows.filter (matchesUrl u) ≠ [] → urlKey ∈ df.cols →
        (update_output_data df new_row).rows.length = df.rows.length)
    ∧ (df.rows.filter (matchesUrl u) = [] ∨ urlKey ∉ df.cols →
        (update_output_data df new_row).rows = df.rows ++ [new_row]) := by
  have hu' : (u != "") = true := by simpa using hu
  have hm : ∀ r : OutRow, matchesUrl u (updateRowFields r new_row) = true :=
    fun r => matchesUrl_updateRowFields r new_row u hnd hurl
  have hnrmem : (urlKey, some u) ∈ new_row := lookupCell_eq_some_mem _ _ _ hurl
  have hnrmatch : matchesUrl u new_row = true := by
    unfold matchesUrl
    rw [hurl]
    simp
  have hvals : ∀ p ∈ new_row, lookupCell new_row p.1 = p.2 := by
    intro p hp
    unfold lookupCell
    rw [find?_nodup_mem new_row p.1 p.2 hnd hp]
  have hvals' : ∀ r0 : OutRow, ∀ p ∈ new_row,
      lookupCell (updateRowFields r0 new_row) p.1 = p.2 := by
    intro r0 p hp
    exact lookupCell_updateRowFields_mem r0 new_row p.1 p.2 hnd hp
  by_cases hcont : df.cols.contains urlKey = true
  · have hcmem : urlKey ∈ df.cols := by simpa using hcont
    by_cases hfil : df.rows.filter (matchesUrl u) = []
    · -- key column present, no matching row: append
      have hnomatch : ∀ r ∈ df.rows, matchesUrl u r = false := by
        intro r hr
        have := List.filter_eq_nil_iff.mp hfil r hr
        simpa using this
      have hf1 : update_output_data df new_row = appendRow df new_row := by
        simp [update_output_data, hurl, hu', hcont, hfil]
      have hacmem : urlKey ∈ (appendRow df new_row).cols := by
        simp [appendRow]
        left
        exact hcmem
      have hacont : (appendRow df new_row).cols.contains urlKey = true := by
        simpa using hacmem
      have afil : (appendRow df new_row).rows.filter (matchesUrl u) = [new_row] := by
        simp only [appendRow]
        rw [List.filter_append, hfil]
        simp [hnrmatch]
      have hufm : updateFirstMatch (appendRow df new_row).rows u new_row
          = (appendRow df new_row).rows := by
        simp only [appendRow]
        rw [updateFirstMatch_append_nomatch df.rows [new_row] u new_row hnomatch]
        simp [updateFirstMatch, hnrmatch, updateRowFields_self new_row hnd]
      have hf2 : update_output_data (appendRow df new_row) new_row
          = appendRow df new_row := by
        simp [update_output_data, hurl, hu, hu', hacmem, hacont, afil, hufm]
      refine ⟨by rw [hf1, hf2], ?_, ?_, ?_⟩
      · intro _
        exact ⟨new_row, by rw [hf1, afil], hvals⟩
      · intro hne _
        exact absurd hfil hne
      · intro _
        rw [hf1]
        simp [appendRow]
    · -- key column present, a matching row exists: in-place update
      cases hfe : df.rows.filter (matchesUrl u) with
      | nil => exact absurd hfe hfil
      | cons r0 rest =>
        have hf1 : update_output_data df new_row
            = { cols := df.cols, rows := updateFirstMatch df.rows u new_row } := by
          simp [update_output_data, hurl, hu, hu', hcmem, hcont, hfe]
        have ffil : (updateFirstMatch df.rows u new_row).filter (matchesUrl u)
            = updateRowFields r0 new_row :: rest := by
          rw [filter_updateFirstMatch df.rows u new_row hm, hfe]
        have hf2 :
            update_output_data
              { cols := df.cols, rows := updateFirstMatch df.rows u new_row }
              new_row
            = { cols := df.cols,
                rows := updateFirstMatch (updateFirstMatch df.rows u new_row) u new_row } := by
          simp [update_output_data, hurl, hu, hu', hcmem, hcont, ffil]
        refine ⟨?_, ?_, ?_, ?_⟩
        · rw [hf1, hf2, updateFirstMatch_idem df.rows u new_row hnd hurl]
        · intro hlen
          have hrest : rest = [] := by
            cases rest with
            | nil => rfl
            | cons a b => simp at hlen
          refine ⟨updateRowFields r0 new_row, ?_, hvals' r0⟩
          rw [hf1]
          show (updateFirstMatch df.rows u new_row).filter (matchesUrl u) = _
          rw [ffil, hrest]
        · intro _ _
          rw [hf1]
          exact updateFirstMatch_length df.rows u new_row
        · intro hdisj
          rcases hdisj with hnil | hnotmem
          · exact absurd hnil (by simp)
          · exact absurd hcmem hnotmem
  · -- key column absent: append
    have hnotmem : urlKey ∉ df.cols := by simpa using hcont
    have hcfalse : df.cols.contains urlKey = false := by simpa using hnotmem
    have hnomatch : ∀ r ∈ df.rows, matchesUrl u r = false := by
      intro r hr
      unfold matchesUrl
      rw [lookupCell_none_of_cols r df.cols urlKey (hwf r hr) hnotmem]
      rfl
    have hfil : df.rows.filter (matchesUrl u) = [] := by
      rw [List.filter_eq_nil_iff]
      intro a ha
      simp [hnomatch a ha]
    have hf1 : update_output_data df new_row = appendRow df new_row := by
      simp [update_output_data, hurl, hnotmem, hcfalse]
    have hacmem : urlKey ∈ (appendRow df new_row).cols := by
      simp only [appendRow]
      refine List.mem_append.mpr (Or.inr ?_)
      rw [List.mem_filter]
      refine ⟨List.mem_map.mpr ⟨(urlKey, some u), hnrmem, rfl⟩, ?_⟩
      simp [hnotmem]
    have hacont : (appendRow df new_row).cols.contains urlKey = true := by
      simpa using hacmem
    have afil : (appendRow df new_row).rows.filter (matchesUrl u) = [new_row] := by
      simp only [appendRow]
      rw [List.filter_append, hfil]
      simp [hnrmatch]
    have hufm : updateFirstMatch (appendRow df new_row).rows u new_row
        = (appendRow df new_row).rows := by
      simp only [appendRow]
      rw [updateFirstMatch_append_nomatch df.rows [new_row] u new_row hnomatch]
      simp [updateFirstMatch, hnrmatch, updateRowFields_self new_row hnd]
    have hf2 : update_output_data (appendRow df new_row) new_row
        = appendRow df new_row := by
      simp [update_output_data, hurl, hu, hu', hacmem, hacont, afil, hufm]
    refine ⟨by rw [hf1, hf2], ?_, ?_, ?_⟩
    · intro _
      exact ⟨new_row, by rw [hf1, afil], hvals⟩
    · intro _ hmem
      exact absurd hmem hnotmem
    · intro _
      rw [hf1]
      simp [appendRow]

/-- C3 witness: upserting into a one-row store that already holds the key
updates in place; the second application changes nothing. -/
theorem c3_upsert_idempotent_witness :
    update_output_data (update_output_data wFrame wNewRow) wNewRow
      = update_output_data wFrame wNewRow :=
  (c3_upsert_idempotent wFrame wNewRow "http://x" (by decide) (by decide)
    (by decide) (by decide)).1
